import Mathlib

/- Verification of the bash-mini shell (src/bash_mini.c) against its design
specification.  Each C function is shallowly embedded as a Lean function:
system calls (access, chdir, fork, waitpid, read, write) are modelled as
oracles or event lists passed in as parameters, byte buffers as lists of
characters, and C string lengths as character counts. -/

namespace BashMini

set_option autoImplicit false

/-! Tokenizer: parse_tokens, bash_mini.c lines 111-132. -/

/-- Separator test of the tokenizer: space or tab (bash_mini.c lines 116 and 122). -/
def isSep (c : Char) : Bool := c = ' ' || c = '\t'

/-- The scanning loop of parse_tokens (bash_mini.c lines 115-128) as a character
scan.  `st = none` means the scanner is between tokens (skipping separators);
`st = some acc` means it is inside a token whose characters read so far are
`acc` in reverse.  `argc` counts tokens already recorded, exactly as in the C
code, and the cap check `argc >= max_args - 1` (line 119) runs at each token
start before the token is recorded; when it fires the rest of the line is
dropped. -/
def pt_go : List Char → Option (List Char) → Nat → Nat → List String
  | [], none, _, _ => []
  | [], some acc, _, _ => [String.mk acc.reverse]
  | c :: rest, none, argc, max_args =>
    if isSep c then pt_go rest none argc max_args
    else if max_args - 1 ≤ argc then []
    else pt_go rest (some [c]) (argc + 1) max_args
  | c :: rest, some acc, argc, max_args =>
    if isSep c then String.mk acc.reverse :: pt_go rest none argc max_args
    else pt_go rest (some (c :: acc)) argc max_args

/-- parse_tokens (bash_mini.c lines 111-132): split `line` on runs of spaces
and tabs, recording at most `max_args - 1` tokens; one slot of the C `argv`
array is reserved for the NULL sentinel written at line 130. -/
def parse_tokens (line : String) (max_args : Nat) : List String :=
  pt_go line.data none 0 max_args

/-- The same scan with the token cap removed: the full whitespace tokenization
of the line.  Used to express exactly what truncation drops. -/
def pt_all : List Char → Option (List Char) → List String
  | [], none => []
  | [], some acc => [String.mk acc.reverse]
  | c :: rest, none =>
    if isSep c then pt_all rest none
    else pt_all rest (some [c])
  | c :: rest, some acc =>
    if isSep c then String.mk acc.reverse :: pt_all rest none
    else pt_all rest (some (c :: acc))

/-- Full (uncapped) whitespace tokenization of a line. -/
def tokens_all (line : String) : List String := pt_all line.data none

/-- Remaining number of tokens the capped scan may still emit from state `st`
with `argc` tokens recorded: in a token, the current token is already counted
by `argc` but not yet emitted. -/
def ptBound (st : Option (List Char)) (argc max_args : Nat) : Nat :=
  match st with
  | none => max_args - 1 - argc
  | some _ => max_args - argc

/-- The capped scan emits exactly the prefix of the uncapped scan allowed by
the budget `ptBound`. -/
theorem pt_go_eq_take (cs : List Char) : ∀ st argc max_args,
    (∀ acc, st = some acc → argc < max_args) →
    pt_go cs st argc max_args = (pt_all cs st).take (ptBound st argc max_args) := by
  induction cs with
  | nil =>
    intro st argc max_args h
    cases st with
    | none => simp [pt_go, pt_all]
    | some acc =>
      have hlt : argc < max_args := h acc rfl
      have h1 : [String.mk acc.reverse].length ≤ max_args - argc := by
        simp; omega
      simp only [pt_go, pt_all, ptBound]
      rw [List.take_of_length_le h1]
  | cons c rest ih =>
    intro st argc max_args h
    cases st with
    | none =>
      by_cases hsep : isSep c = true
      · have hrec := ih none argc max_args (by simp)
        simp only [pt_go, pt_all]
        rw [if_pos hsep, if_pos hsep, hrec]
      · by_cases hcap : max_args - 1 ≤ argc
        · have hb : ptBound none argc max_args = 0 := by
            simp only [ptBound]; omega
          simp only [pt_go, pt_all, hb]
          rw [if_neg hsep, if_neg hsep, if_pos hcap, List.take_zero]
        · have hrec := ih (some [c]) (argc + 1) max_args (fun a _ => by omega)
          have hb : ptBound (some [c]) (argc + 1) max_args = ptBound none argc max_args := by
            simp only [ptBound]; omega
          simp only [pt_go, pt_all]
          rw [if_neg hsep, if_neg hsep, if_neg hcap, hrec, hb]
    | some acc =>
      have hlt : argc < max_args := h acc rfl
      by_cases hsep : isSep c = true
      · have hrec := ih none argc max_args (by simp)
        have hb : ptBound (some acc) argc max_args = (ptBound none argc max_args) + 1 := by
          simp only [ptBound]; omega
        simp only [pt_go, pt_all]
        rw [if_pos hsep, if_pos hsep, hrec, hb, List.take_succ_cons]
      · have hrec := ih (some (c :: acc)) argc max_args (fun a _ => hlt)
        have hb : ptBound (some (c :: acc)) argc max_args = ptBound (some acc) argc max_args := by
          simp only [ptBound]
        simp only [pt_go, pt_all]
        rw [if_neg hsep, if_neg hsep, hrec, hb]

/-- parse_tokens keeps exactly the first `max_args - 1` tokens of the full
tokenization. -/
theorem parse_tokens_eq_take (line : String) (max_args : Nat) :
    parse_tokens line max_args = (tokens_all line).take (max_args - 1) := by
  have := pt_go_eq_take line.data none 0 max_args (by simp)
  simpa [parse_tokens, tokens_all, ptBound] using this

/-- A line of 129 single-letter tokens separated by single spaces: 128 tokens
followed by more whitespace-separated text. -/
def line129 : String := String.intercalate " " (List.replicate 129 "a")

/-- C1, counterexample: the claim predicts that a line containing exactly 128
whitespace-separated tokens followed by more whitespace-separated text is
truncated at 128 tokens.  On `line129` (129 tokens, so 128 tokens followed by
one more) the shell's tokenizer with MAX_ARGS = 128 keeps only 127 tokens: the
cap check `argc >= max_args - 1` at bash_mini.c line 119 fires after the 127th
token, because one argv slot is reserved for the NULL sentinel. -/
theorem C1_tokens_cap_counterexample :
    (tokens_all line129).length = 129 ∧
    (parse_tokens line129 128).length = 127 ∧
    ¬ ((parse_tokens line129 128).length = 128) := by
  set_option maxRecDepth 10000 in refine ⟨by decide, by decide, by decide⟩

/-- C1, amended: for every input line, tokenization with MAX_ARGS = 128
produces at most 127 tokens (MAX_ARGS - 1, one argv slot being reserved for
the NULL sentinel); the tokens kept are exactly the first 127 tokens of the
full whitespace tokenization, the excess text is silently dropped, and no
error is raised (the tokenizer is total and just truncates). -/
theorem C1_tokens_cap :
    ∀ line : String,
      parse_tokens line 128 = (tokens_all line).take 127 ∧
      (parse_tokens line 128).length ≤ 127 := by
  intro line
  have h := parse_tokens_eq_take line 128
  refine ⟨h, ?_⟩
  rw [h]
  exact List.length_take_le 127 (tokens_all line)

/-! Resolver: is_executable and find_command_path, bash_mini.c lines 136-180.
The access(path, X_OK) test is modelled by an oracle `isExec`, the HOME
environment variable by `home : Option String` (none = unset), and C string
lengths by character counts. -/

/-- find_command_path (bash_mini.c lines 145-180).  First the $HOME candidate
(lines 148-161): only when HOME is set and nonempty, and only when the
constructed path together with its terminator fits in the `out_sz`-byte buffer
(`need = strlen(home) + 1 + strlen(cmd) + 1 <= out_sz`, line 149-150); the
candidate is returned when the executable test passes.  Otherwise the /bin
candidate (lines 163-177) is tried the same way; if neither passes, the
function reports failure (line 179, returning 0 = none). -/
def find_command_path (isExec : String → Bool) (home : Option String)
    (cmd : String) (out_sz : Nat) : Option String :=
  let homeHit : Option String :=
    match home with
    | some h =>
      if h ≠ "" then
        if h.length + 1 + cmd.length + 1 ≤ out_sz then
          let p := h ++ "/" ++ cmd
          if isExec p then some p else none
        else none
      else none
    | none => none
  match homeHit with
  | some p => some p
  | none =>
    if 4 + 1 + cmd.length + 1 ≤ out_sz then
      let p := "/bin/" ++ cmd
      if isExec p then some p else none
    else none

/-- C3: the resolver tries $HOME/<cmd> first and /bin/<cmd> second, returns
the first candidate passing the executable-permission oracle (a candidate
with `isExec = false` — e.g. a file that exists but is not executable — is
skipped, never returned), behaves with an empty HOME exactly as with an unset
one (the candidate is skipped entirely), and returns none when no candidate
passes.  The length hypotheses state that both candidate paths fit the
4096-byte buffer, isolating the permission logic from the bounds check of C7. -/
theorem C3_resolver_order (isExec : String → Bool) (h cmd : String)
    (hne : h ≠ "") (hfit : h.length + 1 + cmd.length + 1 ≤ 4096)
    (bfit : 4 + 1 + cmd.length + 1 ≤ 4096) :
    (isExec (h ++ "/" ++ cmd) = true →
      find_command_path isExec (some h) cmd 4096 = some (h ++ "/" ++ cmd)) ∧
    (isExec (h ++ "/" ++ cmd) = false → isExec ("/bin/" ++ cmd) = true →
      find_command_path isExec (some h) cmd 4096 = some ("/bin/" ++ cmd)) ∧
    (isExec (h ++ "/" ++ cmd) = false → isExec ("/bin/" ++ cmd) = false →
      find_command_path isExec (some h) cmd 4096 = none) ∧
    (find_command_path isExec none cmd 4096 =
      find_command_path isExec (some "") cmd 4096) ∧
    (isExec ("/bin/" ++ cmd) = true →
      find_command_path isExec none cmd 4096 = some ("/bin/" ++ cmd)) ∧
    (isExec ("/bin/" ++ cmd) = false →
      find_command_path isExec none cmd 4096 = none) := by
  refine ⟨?_, ?_, ?_, ?_, ?_, ?_⟩
  · intro hx
    simp [find_command_path, hne, hfit, hx]
  · intro hx hb
    simp [find_command_path, hne, hfit, hx, hb]
    omega
  · intro hx hb
    simp [find_command_path, hne, hfit, bfit, hx, hb]
  · simp [find_command_path]
  · intro hb
    simp [find_command_path, bfit, hb]
  · intro hb
    simp [find_command_path, bfit, hb]

/-- Oracle marking exactly one path executable: the sample program in the
home directory. -/
def execHomeOnly : String → Bool := fun p => p == "/home/u/prog"

/-- C3 witness: the resolver theorem applied at a concrete oracle, home
directory and command name, with every hypothesis discharged by evaluation. -/
theorem C3_resolver_order_witness :
    (("/home/u" : String) ≠ "" ∧
     ("/home/u" : String).length + 1 + ("prog" : String).length + 1 ≤ 4096 ∧
     4 + 1 + ("prog" : String).length + 1 ≤ 4096) ∧
    ((execHomeOnly ("/home/u" ++ "/" ++ "prog") = true →
      find_command_path execHomeOnly (some "/home/u") "prog" 4096 =
        some ("/home/u" ++ "/" ++ "prog")) ∧
    (execHomeOnly ("/home/u" ++ "/" ++ "prog") = false →
      execHomeOnly ("/bin/" ++ "prog") = true →
      find_command_path execHomeOnly (some "/home/u") "prog" 4096 =
        some ("/bin/" ++ "prog")) ∧
    (execHomeOnly ("/home/u" ++ "/" ++ "prog") = false →
      execHomeOnly ("/bin/" ++ "prog") = false →
      find_command_path execHomeOnly (some "/home/u") "prog" 4096 = none) ∧
    (find_command_path execHomeOnly none "prog" 4096 =
      find_command_path execHomeOnly (some "") "prog" 4096) ∧
    (execHomeOnly ("/bin/" ++ "prog") = true →
      find_command_path execHomeOnly none "prog" 4096 = some ("/bin/" ++ "prog")) ∧
    (execHomeOnly ("/bin/" ++ "prog") = false →
      find_command_path execHomeOnly none "prog" 4096 = none)) :=
  ⟨⟨by decide, by decide, by decide⟩,
    C3_resolver_order execHomeOnly "/home/u" "prog" (by decide) (by decide) (by decide)⟩

/-- C7: a candidate path that does not fit the fixed 4096-byte buffer
(together with its terminating NUL, exactly the C check
`need = strlen(home) + 1 + strlen(cmd) + 1 <= out_sz`) is skipped for that
directory only: with an oversized $HOME candidate, resolution behaves exactly
as if HOME were unset and continues with /bin; an oversized /bin candidate
makes that branch fail without any fatal error; and every path the resolver
returns satisfies `length + 1 <= 4096`, so the NUL written at index `length`
and every byte before it stay inside the 4096-byte buffer. -/
theorem len_bin_dir : ("/bin/" : String).length = 5 := rfl

theorem len_slash : ("/" : String).length = 1 := rfl

theorem C7_path_bounds (isExec : String → Bool) (h cmd : String)
    (hne : h ≠ "") (hlong : 4096 < h.length + 1 + cmd.length + 1) :
    (find_command_path isExec (some h) cmd 4096 =
      find_command_path isExec none cmd 4096) ∧
    (4096 < 4 + 1 + cmd.length + 1 →
      find_command_path isExec none cmd 4096 = none) ∧
    (∀ home p, find_command_path isExec home cmd 4096 = some p →
      p.length + 1 ≤ 4096) := by
  refine ⟨?_, ?_, ?_⟩
  · have hfit : ¬ (h.length + 1 + cmd.length + 1 ≤ 4096) := by omega
    simp [find_command_path, hne, hfit]
  · intro hb
    have hfit : ¬ (4 + 1 + cmd.length + 1 ≤ 4096) := by omega
    simp [find_command_path, hfit]
  · intro home p hp
    cases home with
    | none =>
      by_cases bfit : 4 + 1 + cmd.length + 1 ≤ 4096
      · by_cases hx : isExec ("/bin/" ++ cmd) = true
        · simp [find_command_path, bfit, hx] at hp
          subst hp
          simp [String.length_append, len_bin_dir, len_slash]
          omega
        · simp [find_command_path, bfit, hx] at hp
      · simp [find_command_path, bfit] at hp
    | some h0 =>
      by_cases h0ne : h0 = ""
      · subst h0ne
        by_cases bfit : 4 + 1 + cmd.length + 1 ≤ 4096
        · by_cases hx : isExec ("/bin/" ++ cmd) = true
          · simp [find_command_path, bfit, hx] at hp
            subst hp
            simp [String.length_append, len_bin_dir, len_slash]
            omega
          · simp [find_command_path, bfit, hx] at hp
        · simp [find_command_path, bfit] at hp
      · by_cases hfit : h0.length + 1 + cmd.length + 1 ≤ 4096
        · by_cases hx : isExec (h0 ++ "/" ++ cmd) = true
          · simp [find_command_path, h0ne, hfit, hx] at hp
            subst hp
            simp [String.length_append, len_bin_dir, len_slash]
            omega
          · by_cases bfit : 4 + 1 + cmd.length + 1 ≤ 4096
            · by_cases bx : isExec ("/bin/" ++ cmd) = true
              · simp [find_command_path, h0ne, hfit, hx, bfit, bx] at hp
                subst hp
                simp [String.length_append, len_bin_dir, len_slash]
                omega
              · simp [find_command_path, h0ne, hfit, hx, bfit, bx] at hp
            · simp [find_command_path, h0ne, hfit, hx, bfit] at hp
        · by_cases bfit : 4 + 1 + cmd.length + 1 ≤ 4096
          · by_cases bx : isExec ("/bin/" ++ cmd) = true
            · simp [find_command_path, h0ne, hfit, bfit, bx] at hp
              subst hp
              simp [String.length_append, len_bin_dir, len_slash]
              omega
            · simp [find_command_path, h0ne, hfit, bfit, bx] at hp
          · simp [find_command_path, h0ne, hfit, bfit] at hp

/-- A home-directory string of 4200 characters, longer than any candidate
path the 4096-byte buffer can hold. -/
def hugeHome : String := String.mk (List.replicate 4200 'h')

theorem hugeHome_length : hugeHome.length = 4200 := by
  rw [hugeHome, String.length_mk, List.length_replicate]

theorem hugeHome_ne : hugeHome ≠ "" := by
  intro hcontra
  have h1 : hugeHome.length = 0 := by rw [hcontra]; rfl
  rw [hugeHome_length] at h1
  exact absurd h1 (by omega)

theorem hugeHome_long : 4096 < hugeHome.length + 1 + ("prog" : String).length + 1 := by
  rw [hugeHome_length]; decide

/-- C7 witness: the bounds theorem applied at a concrete oracle, an oversized
home directory and a concrete command name, with every hypothesis discharged
by evaluation. -/
theorem C7_path_bounds_witness :
    (hugeHome ≠ "" ∧ 4096 < hugeHome.length + 1 + ("prog" : String).length + 1) ∧
    ((find_command_path execHomeOnly (some hugeHome) "prog" 4096 =
      find_command_path execHomeOnly none "prog" 4096) ∧
    (4096 < 4 + 1 + ("prog" : String).length + 1 →
      find_command_path execHomeOnly none "prog" 4096 = none) ∧
    (∀ home p, find_command_path execHomeOnly home "prog" 4096 = some p →
      p.length + 1 ≤ 4096)) :=
  ⟨⟨hugeHome_ne, hugeHome_long⟩,
    C7_path_bounds execHomeOnly hugeHome "prog" hugeHome_ne hugeHome_long⟩

/-! Built-in cd: handle_cd, bash_mini.c lines 184-200.  chdir(2) is modelled
by the oracle `chdirOk`; a successful chdir to target `t` makes `t` the
working directory (all targets in the claims are absolute paths).  `errDesc`
stands for the strerror(errno) text that perror("cd") appends to its label.
The function returns the new working directory and the stderr lines it
prints; it returns in every case (the loop then continues — cd is never
fatal). -/

/-- handle_cd (bash_mini.c lines 184-200): with fewer than two argv entries
the target is $HOME (error and return when unset or empty, lines 187-192);
otherwise the target is argv[1] (line 194); chdir failure is reported with
perror("cd") (lines 197-199). -/
def handle_cd (home : Option String) (chdirOk : String → Bool) (errDesc : String)
    (args : List String) (cwd : String) : String × List String :=
  if args.length < 2 then
    match home with
    | none => (cwd, ["cd: HOME not set\n"])
    | some t =>
      if t = "" then (cwd, ["cd: HOME not set\n"])
      else if chdirOk t then (t, []) else (cwd, ["cd: " ++ errDesc ++ "\n"])
  else
    let t := (args[1]?).getD ""
    if chdirOk t then (t, []) else (cwd, ["cd: " ++ errDesc ++ "\n"])

/-- C9: cd with no argument goes to $HOME (stderr error and unchanged
directory when HOME is unset or empty); with an argument it goes to that
path; on chdir failure it reports through perror (the system's native error
description) and leaves the directory unchanged; it always returns to the
loop.  In particular chdir-ing to /tmp and then running cd without arguments
under HOME=/home/u ends in /home/u. -/
theorem C9_handle_cd (home : Option String) (chdirOk : String → Bool)
    (errDesc cwd : String)
    (h1 : chdirOk "/tmp" = true) (h2 : chdirOk "/home/u" = true) :
    (home = none ∨ home = some "" →
      handle_cd home chdirOk errDesc ["cd"] cwd = (cwd, ["cd: HOME not set\n"])) ∧
    (∀ h, h ≠ "" → chdirOk h = true →
      handle_cd (some h) chdirOk errDesc ["cd"] cwd = (h, [])) ∧
    (∀ t rest, chdirOk t = true →
      handle_cd home chdirOk errDesc ("cd" :: t :: rest) cwd = (t, [])) ∧
    (∀ t rest, chdirOk t = false →
      handle_cd home chdirOk errDesc ("cd" :: t :: rest) cwd =
        (cwd, ["cd: " ++ errDesc ++ "\n"])) ∧
    ((handle_cd (some "/home/u") chdirOk errDesc ["cd"]
        (handle_cd (some "/home/u") chdirOk errDesc ["cd", "/tmp"] cwd).1).1 =
      "/home/u") := by
  refine ⟨?_, ?_, ?_, ?_, ?_⟩
  · rintro (rfl | rfl) <;> simp [handle_cd]
  · intro h hne hok
    simp [handle_cd, hne, hok]
  · intro t rest hok
    simp [handle_cd, hok]
  · intro t rest hbad
    simp [handle_cd, hbad]
  · simp [handle_cd, h1, h2]

/-- C9 witness: the cd theorem applied at a concrete HOME, an always
succeeding chdir oracle, a concrete error text and starting directory. -/
theorem C9_handle_cd_witness :
    ((fun _ : String => true) "/tmp" = true ∧ (fun _ : String => true) "/home/u" = true) ∧
    ((some "/home/u" = none ∨ some "/home/u" = some "" →
      handle_cd (some "/home/u") (fun _ => true) "No such file or directory" ["cd"] "/" =
        ("/", ["cd: HOME not set\n"])) ∧
    (∀ h, h ≠ "" → (fun _ : String => true) h = true →
      handle_cd (some h) (fun _ => true) "No such file or directory" ["cd"] "/" = (h, [])) ∧
    (∀ t rest, (fun _ : String => true) t = true →
      handle_cd (some "/home/u") (fun _ => true) "No such file or directory"
        ("cd" :: t :: rest) "/" = (t, [])) ∧
    (∀ t rest, (fun _ : String => true) t = false →
      handle_cd (some "/home/u") (fun _ => true) "No such file or directory"
        ("cd" :: t :: rest) "/" =
        ("/", ["cd: " ++ "No such file or directory" ++ "\n"])) ∧
    ((handle_cd (some "/home/u") (fun _ => true) "No such file or directory" ["cd"]
        (handle_cd (some "/home/u") (fun _ => true) "No such file or directory"
          ["cd", "/tmp"] "/").1).1 = "/home/u")) :=
  ⟨⟨rfl, rfl⟩,
    C9_handle_cd (some "/home/u") (fun _ => true) "No such file or directory" "/" rfl rfl⟩

/-! Executor: u32_to_str (bash_mini.c lines 49-64), execute_external
(lines 213-262) and the child branch (lines 227-232).  The wait status is the
raw int filled in by waitpid, decoded with the glibc macros; fork and waitpid
outcomes are modelled by the `SpawnEv` event. -/

/-- The digit loop of u32_to_str (bash_mini.c lines 56-61): while
`x > 0 && t < 32` push the next low decimal digit.  `fuel = 32 - t` counts
the remaining `tmp` slots; pushing onto the list head makes the final list
most-significant-digit first, exactly the order lines 62-63 copy `tmp` out. -/
def u32_digits : Nat → Nat → List Char → List Char
  | _, 0, acc => acc
  | x, fuel + 1, acc =>
    if 0 < x then u32_digits (x / 10) fuel (Char.ofNat (48 + x % 10) :: acc)
    else acc

/-- u32_to_str (bash_mini.c lines 49-64): decimal rendering of a non-negative
integer. -/
def u32_to_str (x : Nat) : String :=
  if x = 0 then "0" else String.mk (u32_digits x 32 [])

/-- WIFEXITED of glibc: the low seven status bits are zero. -/
def wifexited (status : Nat) : Bool := status % 128 == 0

/-- WEXITSTATUS of glibc: bits 8-15 of the status. -/
def wexitstatus (status : Nat) : Nat := status / 256 % 256

/-- WIFSIGNALED of glibc: the low seven bits are neither 0 (normal exit) nor
0x7f (stopped). -/
def wifsignaled (status : Nat) : Bool := status % 128 != 0 && status % 128 != 127

/-- WTERMSIG of glibc: the low seven status bits. -/
def wtermsig (status : Nat) : Nat := status % 128

/-- The fixed banner printed at bash_mini.c line 241 after every successful
wait, before the status is even inspected. -/
def success_banner : String := "Command executed successfully.\n"

/-- The single terminal-state line printed at bash_mini.c lines 243-261:
return code on normal exit, signal number on termination by signal, a generic
message otherwise. -/
def status_report (status : Nat) : List String :=
  if wifexited status then
    ["Command finished. Return code: " ++ u32_to_str (wexitstatus status) ++ "\n"]
  else if wifsignaled status then
    ["Command terminated by signal: " ++ u32_to_str (wtermsig status) ++ "\n"]
  else
    ["Command finished with unknown status.\n"]

/-- Outcome of the fork/waitpid pair seen by the parent, an oracle for the
two system calls: fork failed (line 222), waitpid failed (line 235), or
waitpid returned this raw status.  Each carries the strerror text perror
would print. -/
inductive SpawnEv where
  | forkFail (d : String)
  | waitFail (d : String)
  | waited (status : Nat)

/-- Observable effect of one execute_external call: the lines written to
stdout, the lines written to stderr, and whether a child process was forked. -/
structure ExecOut where
  stdoutLines : List String
  stderrLines : List String
  spawned : Bool
deriving DecidableEq

/-- print_unknown_command (bash_mini.c lines 204-211): the bracketed message
required by the assignment, written to stderr. -/
def unknown_command_msg (cmd : String) : String := "]" ++ cmd ++ "]: Unknown Command[\n"

/-- execute_external (bash_mini.c lines 213-262): resolve argv[0] with a
4096-byte path buffer (line 214-216); on failure print the unknown-command
message and return without forking (lines 217-218); on fork failure perror
and return (lines 222-225); on waitpid failure perror and return, skipping
the banner (lines 235-238); otherwise print the banner (line 241) and the
status report (lines 243-261). -/
def execute_external (isExec : String → Bool) (home : Option String)
    (argv0 : String) (ev : SpawnEv) : ExecOut :=
  match find_command_path isExec home argv0 4096 with
  | none => ⟨[], [unknown_command_msg argv0], false⟩
  | some _ =>
    match ev with
    | .forkFail d => ⟨[], ["fork: " ++ d ++ "\n"], false⟩
    | .waitFail d => ⟨[], ["waitpid: " ++ d ++ "\n"], true⟩
    | .waited status => ⟨success_banner :: status_report status, [], true⟩

/-- What the child process comes to after fork (bash_mini.c lines 227-232):
either its image was replaced by the resolved executable, or execv returned,
in which case the child prints through perror("exec") and _exits with the
code it passes. -/
inductive ChildEnd where
  | replaced (path : String) (argv : List String)
  | selfEnded (code : Nat) (stderrLines : List String)
deriving DecidableEq

/-- The child branch of execute_external (bash_mini.c lines 227-232): execv
the resolved path with the original argv; if execv returns it failed, so
perror("exec") and _exit(127). -/
def child_after_fork (path : String) (argv : List String) (execOk : Bool)
    (d : String) : ChildEnd :=
  if execOk then .replaced path argv else .selfEnded 127 ["exec: " ++ d ++ "\n"]

/-- C2: whenever the child is successfully waited on, the shell prints the
fixed success banner first, regardless of the status, followed by exactly one
terminal-state line: the numeric exit code (always below 256) on normal exit,
the signal number with its own distinct message on termination by signal, and
a generic unknown-status message otherwise. -/
theorem C2_wait_reporting (isExec : String → Bool) (home : Option String)
    (argv0 p : String) (status : Nat)
    (hres : find_command_path isExec home argv0 4096 = some p) :
    ∃ l, (execute_external isExec home argv0 (.waited status)).stdoutLines =
        [success_banner, l] ∧
      (wifexited status = true →
        l = "Command finished. Return code: " ++ u32_to_str (wexitstatus status) ++ "\n" ∧
        wexitstatus status < 256) ∧
      (wifexited status = false → wifsignaled status = true →
        l = "Command terminated by signal: " ++ u32_to_str (wtermsig status) ++ "\n") ∧
      (wifexited status = false → wifsignaled status = false →
        l = "Command finished with unknown status.\n") := by
  refine ⟨(status_report status).headD "", ?_, ?_, ?_, ?_⟩
  · by_cases he : wifexited status = true
    · simp [execute_external, hres, status_report, he]
    · by_cases hs : wifsignaled status = true
      · simp [execute_external, hres, status_report, he, hs]
      · simp [execute_external, hres, status_report, he, hs]
  · intro he
    refine ⟨by simp [status_report, he], ?_⟩
    exact Nat.mod_lt _ (by omega)
  · intro he hs
    simp [status_report, he, hs]
  · intro he hs
    simp [status_report, he, hs]

/-- C2 witness: the reporting theorem at a concrete resolution and the wait
status 3*256, which WIFEXITED decodes as a normal exit with code 3 — the
scenario of the specification. -/
theorem C2_wait_reporting_witness :
    (find_command_path execHomeOnly (some "/home/u") "prog" 4096 = some "/home/u/prog") ∧
    (∃ l, (execute_external execHomeOnly (some "/home/u") "prog"
        (.waited 768)).stdoutLines = [success_banner, l] ∧
      (wifexited 768 = true →
        l = "Command finished. Return code: " ++ u32_to_str (wexitstatus 768) ++ "\n" ∧
        wexitstatus 768 < 256) ∧
      (wifexited 768 = false → wifsignaled 768 = true →
        l = "Command terminated by signal: " ++ u32_to_str (wtermsig 768) ++ "\n") ∧
      (wifexited 768 = false → wifsignaled 768 = false →
        l = "Command finished with unknown status.\n")) :=
  ⟨by decide,
    C2_wait_reporting execHomeOnly (some "/home/u") "prog" "/home/u/prog" 768 (by decide)⟩

/-- C4: whenever execv fails in the child, the child reports through the
error channel and terminates with exit code 127; that code differs from the
shell's own exit statuses, which are 0 from every terminating path of the
main loop and 1 from a failed write of the shell itself. -/
theorem C4_exec_failure_127 (path : String) (argv : List String) (d : String) :
    child_after_fork path argv false d = .selfEnded 127 ["exec: " ++ d ++ "\n"] ∧
    (∀ code stderrLines, child_after_fork path argv false d =
      .selfEnded code stderrLines → code = 127 ∧ stderrLines ≠ []) ∧
    (127 : Nat) ≠ 0 ∧ (127 : Nat) ≠ 1 := by
  refine ⟨rfl, ?_, by omega, by omega⟩
  intro code stderrLines h
  simp [child_after_fork] at h
  exact ⟨h.1.symm, by simp [← h.2]⟩

/-- C4 witness: the exec-failure theorem instantiated at a concrete resolved
path, argument vector and strerror text. -/
theorem C4_exec_failure_127_witness :
    child_after_fork "/home/u/prog" ["prog"] false "Permission denied" =
      .selfEnded 127 ["exec: " ++ "Permission denied" ++ "\n"] ∧
    (∀ code stderrLines, child_after_fork "/home/u/prog" ["prog"] false "Permission denied" =
      .selfEnded code stderrLines → code = 127 ∧ stderrLines ≠ []) ∧
    (127 : Nat) ≠ 0 ∧ (127 : Nat) ≠ 1 :=
  C4_exec_failure_127 "/home/u/prog" ["prog"] "Permission denied"

/-- C5: a command name that resolves to no executable in either search
directory makes the shell print the bracketed unknown-command message to
standard error and fork no child: stdout gets nothing, stderr gets exactly
one line of the required format. -/
theorem C5_unknown_command (isExec : String → Bool) (home : Option String)
    (argv0 : String) (ev : SpawnEv)
    (hres : find_command_path isExec home argv0 4096 = none) :
    execute_external isExec home argv0 ev =
      ⟨[], ["]" ++ argv0 ++ "]: Unknown Command[\n"], false⟩ := by
  simp [execute_external, hres, unknown_command_msg]

/-- C5 witness: the unknown-command theorem at an oracle that rejects every
path, matching the scenario of a command present nowhere. -/
theorem C5_unknown_command_witness :
    (find_command_path (fun _ => false) (some "/home/u") "echo" 4096 = none) ∧
    execute_external (fun _ => false) (some "/home/u") "echo" (.waited 0) =
      ⟨[], ["]" ++ "echo" ++ "]: Unknown Command[\n"], false⟩ :=
  ⟨by decide,
    C5_unknown_command (fun _ => false) (some "/home/u") "echo" (.waited 0) (by decide)⟩

/-- C6: when waitpid fails on the spawned child, the shell reports the
failure on stderr and prints nothing at all to stdout — neither the success
banner nor any return-code or signal line — and execute_external returns so
the loop shows the next prompt. -/
theorem C6_wait_failure (isExec : String → Bool) (home : Option String)
    (argv0 p d : String)
    (hres : find_command_path isExec home argv0 4096 = some p) :
    (execute_external isExec home argv0 (.waitFail d)).stdoutLines = [] ∧
    (execute_external isExec home argv0 (.waitFail d)).stderrLines =
      ["waitpid: " ++ d ++ "\n"] ∧
    success_banner ∉ (execute_external isExec home argv0 (.waitFail d)).stdoutLines := by
  simp [execute_external, hres]

/-- C6 witness: the wait-failure theorem at a concrete resolution and a
concrete strerror text. -/
theorem C6_wait_failure_witness :
    (find_command_path execHomeOnly (some "/home/u") "prog" 4096 = some "/home/u/prog") ∧
    ((execute_external execHomeOnly (some "/home/u") "prog"
        (.waitFail "No child processes")).stdoutLines = [] ∧
    (execute_external execHomeOnly (some "/home/u") "prog"
        (.waitFail "No child processes")).stderrLines =
      ["waitpid: " ++ "No child processes" ++ "\n"] ∧
    success_banner ∉ (execute_external execHomeOnly (some "/home/u") "prog"
        (.waitFail "No child processes")).stdoutLines) :=
  ⟨by decide,
    C6_wait_failure execHomeOnly (some "/home/u") "prog" "/home/u/prog"
      "No child processes" (by decide)⟩

/-! Line reader: read_line, bash_mini.c lines 74-107.  The heap buffer is a
list of characters of length `cap` with a fill count `len`; malloc yields a
fresh 1024-byte buffer (INITIAL_BUFSZ, line 27), realloc to double size keeps
the old bytes and appends fresh storage.  Each read(2) call is one event of
the input list; an exhausted list behaves like a stream at end-of-file. -/

/-- The input-line buffer: backing storage `data` (always of length `cap`),
its capacity, and the number of accumulated bytes. -/
structure Buf where
  data : List Char
  cap : Nat
  len : Nat
deriving DecidableEq

/-- The NUL byte used as terminator and as the unspecified content of fresh
storage. -/
def nulChar : Char := Char.ofNat 0

/-- The buffer malloc-ed at bash_mini.c lines 75-79: INITIAL_BUFSZ bytes,
empty. -/
def freshBuf : Buf := ⟨List.replicate 1024 nulChar, 1024, 0⟩

/-- The realloc at bash_mini.c lines 85-89: capacity doubles, the bytes
already accumulated are preserved, the new storage is fresh. -/
def growBuf (b : Buf) : Buf := ⟨b.data ++ List.replicate b.cap nulChar, b.cap * 2, b.len⟩

/-- The byte store at bash_mini.c line 102: `(*line)[len++] = c`. -/
def putByte (b : Buf) (c : Char) : Buf := ⟨b.data.set b.len c, b.cap, b.len + 1⟩

/-- The terminator store at bash_mini.c line 105: `(*line)[len] = 0`. -/
def setNul (b : Buf) : Buf := ⟨b.data.set b.len nulChar, b.cap, b.len⟩

/-- One result of the read(2) call at bash_mini.c line 93: an error, end of
file, or one byte. -/
inductive ReadEv where
  | rerr
  | reof
  | rbyte (c : Char)

/-- Return value of read_line: -1, 0 or 1 at bash_mini.c lines 94-106. -/
inductive RLRes where
  | ioErr
  | eofEmpty
  | gotLine
deriving DecidableEq

/-- The read loop of read_line (bash_mini.c lines 83-103) together with the
final terminator store (line 105).  Besides the C result it returns the list
of every buffer state reached, in order, so that the buffer invariant can be
stated at every point of the read.  Each iteration first doubles the buffer
when the next byte plus the reserved terminator would not fit (lines 84-90),
then consumes one read event. -/
def rl_loop (input : List ReadEv) (b : Buf) : RLRes × List Buf :=
  let b1 := if b.cap < b.len + 2 then growBuf b else b
  match input with
  | [] =>
    if b1.len = 0 then (.eofEmpty, [b1]) else (.gotLine, [b1, setNul b1])
  | .rerr :: _ => (.ioErr, [b1])
  | .reof :: _ =>
    if b1.len = 0 then (.eofEmpty, [b1]) else (.gotLine, [b1, setNul b1])
  | .rbyte c :: rest =>
    if c = '\n' then (.gotLine, [b1, setNul b1])
    else
      let r := rl_loop rest (putByte b1 c)
      (r.1, b1 :: putByte b1 c :: r.2)

/-- read_line (bash_mini.c lines 74-107) called with a NULL buffer: allocate
the initial 1024-byte buffer and run the read loop.  Returns the C result and
every buffer state, starting with the freshly allocated one. -/
def read_line (input : List ReadEv) : RLRes × List Buf :=
  let r := rl_loop input freshBuf
  (r.1, freshBuf :: r.2)

/-- The buffer invariant of the specification: the length is strictly below
the capacity (room for the terminator), the backing storage has exactly the
capacity, and the capacity is the initial 1024 doubled some number of
times. -/
def BufInv (b : Buf) : Prop :=
  b.len < b.cap ∧ b.data.length = b.cap ∧ ∃ k, b.cap = 1024 * 2 ^ k

/-- One step of capacity evolution: unchanged or doubled, never shrunk. -/
def capStep (a b : Buf) : Prop := b.cap = a.cap ∨ b.cap = a.cap * 2

theorem bufInv_freshBuf : BufInv freshBuf := by
  refine ⟨?_, ?_, 0, ?_⟩
  · show (0 : Nat) < 1024
    norm_num
  · show (List.replicate 1024 nulChar).length = 1024
    rw [List.length_replicate]
  · show (1024 : Nat) = 1024 * 2 ^ 0
    norm_num

theorem bufInv_growBuf {b : Buf} (h : BufInv b) : BufInv (growBuf b) := by
  obtain ⟨hlt, hlen, k, hcap⟩ := h
  refine ⟨by simp [growBuf]; omega, ?_, k + 1, ?_⟩
  · simp [growBuf, hlen]; omega
  · simp [growBuf, hcap]; ring

theorem bufInv_putByte {b : Buf} (c : Char) (h : BufInv b) (hroom : b.len + 2 ≤ b.cap) :
    BufInv (putByte b c) := by
  obtain ⟨hlt, hlen, k, hcap⟩ := h
  exact ⟨by simp [putByte]; omega, by simp [putByte, hlen], k, by simp [putByte, hcap]⟩

theorem bufInv_setNul {b : Buf} (h : BufInv b) : BufInv (setNul b) := by
  obtain ⟨hlt, hlen, k, hcap⟩ := h
  exact ⟨by simp [setNul]; omega, by simp [setNul, hlen], k, by simp [setNul, hcap]⟩

/-- After the conditional doubling at loop entry the invariant still holds,
the next byte plus terminator fit, and the capacity moved by one legal step. -/
theorem grow_check (b : Buf) (h : BufInv b) :
    BufInv (if b.cap < b.len + 2 then growBuf b else b) ∧
    (if b.cap < b.len + 2 then growBuf b else b).len + 2 ≤
      (if b.cap < b.len + 2 then growBuf b else b).cap ∧
    capStep b (if b.cap < b.len + 2 then growBuf b else b) := by
  by_cases hg : b.cap < b.len + 2
  · simp only [if_pos hg]
    obtain ⟨hlt, hlen, k, hcap⟩ := h
    refine ⟨bufInv_growBuf ⟨hlt, hlen, k, hcap⟩, ?_, Or.inr rfl⟩
    simp only [growBuf]
    omega
  · simp only [if_neg hg]
    exact ⟨h, by omega, Or.inl rfl⟩

/-- Every buffer state reached by the read loop satisfies the invariant, and
consecutive states (starting from the entry state) change capacity only by
legal steps. -/
theorem rl_loop_inv (input : List ReadEv) : ∀ b : Buf, BufInv b →
    (∀ s ∈ (rl_loop input b).2, BufInv s) ∧
    List.Chain capStep b (rl_loop input b).2 := by
  induction input with
  | nil =>
    intro b h
    obtain ⟨h1, h2, h3⟩ := grow_check b h
    by_cases hz : (if b.cap < b.len + 2 then growBuf b else b).len = 0
    · constructor
      · intro s hs
        simp [rl_loop, hz] at hs
        simpa [hs] using h1
      · simp [rl_loop, hz]
        exact h3
    · constructor
      · intro s hs
        simp [rl_loop, hz] at hs
        rcases hs with rfl | rfl
        · exact h1
        · exact bufInv_setNul h1
      · simp [rl_loop, hz]
        exact ⟨h3, Or.inl rfl⟩
  | cons ev rest ih =>
    intro b h
    obtain ⟨h1, h2, h3⟩ := grow_check b h
    cases ev with
    | rerr =>
      constructor
      · intro s hs
        simp [rl_loop] at hs
        simpa [hs] using h1
      · simp [rl_loop]
        exact h3
    | reof =>
      by_cases hz : (if b.cap < b.len + 2 then growBuf b else b).len = 0
      · constructor
        · intro s hs
          simp [rl_loop, hz] at hs
          simpa [hs] using h1
        · simp [rl_loop, hz]
          exact h3
      · constructor
        · intro s hs
          simp [rl_loop, hz] at hs
          rcases hs with rfl | rfl
          · exact h1
          · exact bufInv_setNul h1
        · simp [rl_loop, hz]
          exact ⟨h3, Or.inl rfl⟩
    | rbyte c =>
      by_cases hnl : c = '\n'
      · constructor
        · intro s hs
          simp [rl_loop, hnl] at hs
          rcases hs with rfl | rfl
          · exact h1
          · exact bufInv_setNul h1
        · simp [rl_loop, hnl]
          exact ⟨h3, Or.inl rfl⟩
      · have hput : BufInv (putByte (if b.cap < b.len + 2 then growBuf b else b) c) :=
          bufInv_putByte c h1 h2
        obtain ⟨ihmem, ihchain⟩ := ih (putByte (if b.cap < b.len + 2 then growBuf b else b) c) hput
        constructor
        · intro s hs
          simp [rl_loop, hnl] at hs
          rcases hs with rfl | rfl | hmem
          · exact h1
          · exact hput
          · exact ihmem s hmem
        · simp [rl_loop, hnl]
          exact ⟨h3, Or.inl rfl, ihchain⟩

/-- C8: at every point of every read the buffer keeps `len < cap`; the trace
of buffer states starts with the freshly allocated buffer of the fixed
initial capacity 1024; every state's capacity is 1024 doubled some number of
times; between consecutive states the capacity is either unchanged or
doubled, never shrunk; and the doubling step preserves all bytes of the old
storage — in particular every byte already accumulated. -/
theorem C8_buffer_invariant :
    ∀ input : List ReadEv,
      (read_line input).2.head? = some freshBuf ∧ freshBuf.cap = 1024 ∧
      (∀ s ∈ (read_line input).2, s.len < s.cap) ∧
      (∀ s ∈ (read_line input).2, ∃ k, s.cap = 1024 * 2 ^ k) ∧
      List.Chain' capStep (read_line input).2 ∧
      (∀ b : Buf, (growBuf b).data.take b.data.length = b.data) := by
  intro input
  obtain ⟨hmem, hchain⟩ := rl_loop_inv input freshBuf bufInv_freshBuf
  refine ⟨by simp [read_line], rfl, ?_, ?_, ?_, ?_⟩
  · intro s hs
    simp [read_line] at hs
    rcases hs with rfl | hsm
    · exact bufInv_freshBuf.1
    · exact (hmem s hsm).1
  · intro s hs
    simp [read_line] at hs
    rcases hs with rfl | hsm
    · exact bufInv_freshBuf.2.2
    · exact (hmem s hsm).2.2
  · exact hchain
  · intro b
    simp [growBuf]

/-- C8 witness: the buffer-invariant theorem instantiated at a concrete read
trace, the two bytes of a short command followed by the newline. -/
theorem C8_buffer_invariant_witness :
    (read_line [ReadEv.rbyte 'l', ReadEv.rbyte 's', ReadEv.rbyte '\n']).2.head? =
        some freshBuf ∧ freshBuf.cap = 1024 ∧
    (∀ s ∈ (read_line [ReadEv.rbyte 'l', ReadEv.rbyte 's', ReadEv.rbyte '\n']).2,
      s.len < s.cap) ∧
    (∀ s ∈ (read_line [ReadEv.rbyte 'l', ReadEv.rbyte 's', ReadEv.rbyte '\n']).2,
      ∃ k, s.cap = 1024 * 2 ^ k) ∧
    List.Chain' capStep (read_line [ReadEv.rbyte 'l', ReadEv.rbyte 's', ReadEv.rbyte '\n']).2 ∧
    (∀ b : Buf, (growBuf b).data.take b.data.length = b.data) :=
  C8_buffer_invariant [ReadEv.rbyte 'l', ReadEv.rbyte 's', ReadEv.rbyte '\n']

/-! Shell top level: write_all (bash_mini.c lines 33-42) and main
(lines 266-300).  Each read_line outcome of an iteration is one `LineEv`; an
exhausted event list behaves like a stream at end-of-file (read_line returns
0).  The value main_loop computes is the process exit status of the shell. -/

/-- write_all (bash_mini.c lines 33-42): call write(2) until all `len` bytes
are written; a negative result is a fatal I/O error and the process _exits
with status 1 (line 37).  `ws` lists the successive write(2) results; the
model stops when they are exhausted.  `Except.error c` is `_exit(c)`. -/
def write_all : List Int → Nat → Except Nat Unit
  | _, 0 => .ok ()
  | [], _ + 1 => .ok ()
  | w :: ws, len + 1 =>
    if w < 0 then .error 1
    else write_all ws (len + 1 - w.toNat)

/-- Result of the read_line call of one main-loop iteration (bash_mini.c
lines 273-281): error (-1), end of file (0), or a line. -/
inductive LineEv where
  | rerr
  | reof
  | rline (s : String)

/-- Environment oracles of the shell: HOME, the chdir outcome, and the
strerror text. -/
structure ShellEnv where
  home : Option String
  chdirOk : String → Bool
  errDesc : String

/-- The main loop of the shell (bash_mini.c lines 270-299) restricted to what
decides the process exit status.  A read error breaks the loop after
perror("read") (lines 274-277), end of file breaks it after a newline
(lines 278-281), an empty line or a line of only separators re-prompts
(lines 283-287), `exit` breaks the loop (lines 289-290), `cd` runs the
built-in and continues (lines 291-292), anything else runs execute_external
and continues (lines 293-294).  Every break falls through to `return 0`
(line 299); the returned Nat is that exit status. -/
def main_loop (env : ShellEnv) : List LineEv → String → Nat
  | [], _ => 0
  | .rerr :: _, _ => 0
  | .reof :: _, _ => 0
  | .rline s :: rest, cwd =>
    if s = "" then main_loop env rest cwd
    else
      match parse_tokens s 128 with
      | [] => main_loop env rest cwd
      | a0 :: _ =>
        if a0 = "exit" then 0
        else if a0 = "cd" then
          main_loop env rest
            (handle_cd env.home env.chdirOk env.errDesc (parse_tokens s 128) cwd).1
        else main_loop env rest cwd

theorem main_loop_eq_zero : ∀ (env : ShellEnv) (script : List LineEv) (cwd : String),
    main_loop env script cwd = 0 := by
  intro env script
  induction script with
  | nil => intro cwd; simp [main_loop]
  | cons ev rest ih =>
    intro cwd
    cases ev with
    | rerr => simp [main_loop]
    | reof => simp [main_loop]
    | rline s =>
      by_cases hs : s = ""
      · simp [main_loop, hs, ih]
      · cases htok : parse_tokens s 128 with
        | nil => simp [main_loop, hs, htok, ih]
        | cons a0 tl =>
          by_cases hx : a0 = "exit"
          · simp [main_loop, hs, htok, hx]
          · by_cases hc : a0 = "cd"
            · simp [main_loop, hs, htok, hx, hc, ih]
            · simp [main_loop, hs, htok, hx, hc, ih]

theorem write_all_codes : ∀ (ws : List Int) (len : Nat),
    write_all ws len = .ok () ∨ write_all ws len = .error 1 := by
  intro ws
  induction ws with
  | nil => intro len; cases len <;> simp [write_all]
  | cons w ws ih =>
    intro len
    cases len with
    | zero => simp [write_all]
    | succ n =>
      by_cases hw : w < 0
      · simp [write_all, hw]
      · simpa [write_all, hw] using ih (n + 1 - w.toNat)

/-- C10: every terminating path through main — clean `exit`, end of stream,
and also the read-error path after perror — ends with process exit status 0;
the only nonzero termination of the shell is _exit(1) from write_all when a
write to standard output or standard error fails. -/
theorem C10_shell_exit_codes :
    (∀ (env : ShellEnv) (script : List LineEv) (cwd : String),
      main_loop env script cwd = 0) ∧
    (∀ (env : ShellEnv) (script : List LineEv) (cwd : String),
      main_loop env (LineEv.rerr :: script) cwd = 0) ∧
    (∀ (env : ShellEnv) (script : List LineEv) (cwd : String),
      main_loop env (LineEv.reof :: script) cwd = 0) ∧
    (∀ (env : ShellEnv) (script : List LineEv) (cwd : String),
      main_loop env (LineEv.rline "exit" :: script) cwd = 0) ∧
    (∀ (ws : List Int) (len : Nat),
      write_all ws len = .ok () ∨ write_all ws len = .error 1) :=
  ⟨main_loop_eq_zero,
    fun env script cwd => main_loop_eq_zero env (LineEv.rerr :: script) cwd,
    fun env script cwd => main_loop_eq_zero env (LineEv.reof :: script) cwd,
    fun env script cwd => main_loop_eq_zero env (LineEv.rline "exit" :: script) cwd,
    write_all_codes⟩

end BashMini
